import Mathlib

/-!
# Formal model of the retail POS / inventory front end

A shallow embedding of the core business logic of the repository:
the point-of-sale cart engine and checkout validation (`pages/POS.tsx`),
the transaction ledger / financial summary update (`App.tsx`,
`handleTransactionComplete` and `handleImportTransactions`), and the
CSV/OCR import staging pipeline (`pages/DataManagement.tsx`).

Modelling choices:
* JavaScript numbers holding money are modelled as `ℚ`; discrete counts
  (stock quantities, cart quantities, deltas) are modelled as `ℤ`.
* Fallible parsing (JS `parseFloat` returning `NaN`) is modelled with
  `Option ℚ` (`none` plays the role of `NaN`).
* JS string builtins used by the source (`split`, `trim`, `toLowerCase`,
  `includes`, the `replace(/[^0-9.-]+/g,"")` strip) are given structural
  recursive models on `List Char` so that all definitions evaluate.
* `Date.parse` is an environment builtin; validation takes an oracle
  `dateOk : String → Bool` that models whether `Date.parse` succeeds.
* Nondeterministic environment inputs (`crypto.randomUUID()`,
  `new Date().toISOString()`) are passed as explicit arguments.
-/

/-- JS `str.split(sep)` on the character list: splitting an empty string
yields `[[]]`, matching JS `"".split(',') = [""]`. -/
def splitCharList (sep : Char) : List Char → List (List Char)
  | [] => [[]]
  | c :: rest =>
    let r := splitCharList sep rest
    if c == sep then [] :: r
    else
      match r with
      | [] => [[c]]
      | g :: gs => (c :: g) :: gs

/-- JS `String.prototype.split` with a single-character separator. -/
def jsSplit (sep : Char) (s : String) : List String :=
  (splitCharList sep s.data).map String.mk

/-- JS `String.prototype.trim` (whitespace model: Unicode whitespace). -/
def jsTrim (s : String) : String :=
  String.mk (((s.data.dropWhile Char.isWhitespace).reverse.dropWhile Char.isWhitespace).reverse)

/-- JS `String.prototype.toLowerCase` (ASCII model, enough for the
header names the source inspects). -/
def lowerStr (s : String) : String :=
  String.mk (s.data.map Char.toLower)

/-- Contiguous-sublist test on character lists; `needle` occurs inside
the second argument. -/
def containsSeq (needle : List Char) : List Char → Bool
  | [] => needle.isEmpty
  | c :: rest => needle.isPrefixOf (c :: rest) || containsSeq needle rest

/-- JS `String.prototype.includes`. -/
def strIncludes (s pat : String) : Bool :=
  containsSeq pat.data s.data

/-- The strip `value.replace(/[^0-9.-]+/g, "")` used before numeric
validation: keep only digits, `.` and `-`. -/
def stripNonNumeric (s : String) : String :=
  String.mk (s.data.filter (fun c => c.isDigit || c == '.' || c == '-'))

/-- Value of a digit run, most significant first. -/
def digitsVal (ds : List Char) : ℕ :=
  ds.foldl (fun n c => 10 * n + (c.toNat - '0'.toNat)) 0

/-- Model of JS `parseFloat`: skip leading whitespace, optional sign,
integer digits, optional fraction; trailing garbage is ignored; `none`
models `NaN` (no digit could be parsed). Exponent notation never occurs
in the data this repository feeds to `parseFloat`, so it is not modelled. -/
def jsParseFloat (s : String) : Option ℚ :=
  let cs := s.data.dropWhile Char.isWhitespace
  let signed : Bool × List Char :=
    match cs with
    | '-' :: rest => (true, rest)
    | '+' :: rest => (false, rest)
    | _ => (false, cs)
  let intDs := signed.2.takeWhile Char.isDigit
  let afterInt := signed.2.dropWhile Char.isDigit
  let fracDs :=
    match afterInt with
    | '.' :: rest => rest.takeWhile Char.isDigit
    | _ => []
  if intDs.isEmpty && fracDs.isEmpty then none
  else
    let mag : ℚ :=
      Rat.divInt (digitsVal intDs * 10 ^ fracDs.length + digitsVal fracDs) (10 ^ fracDs.length)
    some (if signed.1 then -mag else mag)

/-! ## Data model (`types.ts`, reconstructed from the mock data and all uses) -/

/-- A catalog product (`Product` in `types.ts`; field set as in
`MOCK_PRODUCTS` of `App.tsx`). -/
structure Product where
  id : String
  name : String
  category : String
  price : ℚ
  cost : ℚ
  stock : ℤ
  reorderPoint : ℤ
  sku : String
  unit : String
deriving DecidableEq, Repr

/-- A cart line (`CartItem extends Product` with a `quantity`), produced
by the spread `{ ...product, quantity }` in `POS.tsx`. -/
structure CartItem where
  id : String
  name : String
  category : String
  price : ℚ
  cost : ℚ
  stock : ℤ
  reorderPoint : ℤ
  sku : String
  unit : String
  quantity : ℤ
deriving DecidableEq, Repr

/-- The spread `{ ...product, quantity: q }`. -/
def Product.toCartItem (p : Product) (q : ℤ) : CartItem :=
  ⟨p.id, p.name, p.category, p.price, p.cost, p.stock, p.reorderPoint, p.sku, p.unit, q⟩

/-- `type PaymentMethod = 'CASH' | 'QRIS' | 'DEBIT'` (`POS.tsx`). -/
inductive PaymentMethod
  | CASH
  | QRIS
  | DEBIT
deriving DecidableEq, Repr

/-- A completed sale (`Transaction` in `types.ts`, built in
`handleProcessPayment` of `POS.tsx`). -/
structure Transaction where
  id : String
  date : String
  items : List CartItem
  subtotal : ℚ
  tax : ℚ
  total : ℚ
  paymentMethod : PaymentMethod
deriving DecidableEq, Repr

/-- Running financial summary (`FinancialSummary` in `types.ts`, seeded
by `INITIAL_SUMMARY` in `App.tsx`). -/
structure FinancialSummary where
  revenue : ℚ
  cogs : ℚ
  grossProfit : ℚ
  expenses : ℚ
  netProfit : ℚ
deriving DecidableEq, Repr

/-! ## POS derived state (`POS.tsx` lines 39-62) -/

/-- `subtotal`: `cart.reduce((sum, item) => sum + item.price * item.quantity, 0)`. -/
def subtotal (cart : List CartItem) : ℚ :=
  cart.foldl (fun sum item => sum + item.price * (item.quantity : ℚ)) 0

/-- `tax = subtotal * 0.11` (PPN 11%). -/
def tax (cart : List CartItem) : ℚ :=
  subtotal cart * (11 / 100)

/-- `total = subtotal + tax`. -/
def total (cart : List CartItem) : ℚ :=
  subtotal cart + tax cart

/-- `totalItems`: `cart.reduce((sum, item) => sum + item.quantity, 0)`. -/
def totalItems (cart : List CartItem) : ℤ :=
  cart.foldl (fun sum item => sum + item.quantity) 0

/-- `parseFloat(cashReceived) || 0`: the numeric cash input, with `NaN`
falling back to `0`. -/
def receivedAmount (cashReceived : String) : ℚ :=
  (jsParseFloat cashReceived).getD 0

/-- The `change` memo: `0` unless paying CASH, else
`Math.max(0, received - total)`. -/
def change (method : PaymentMethod) (cashReceived : String) (cart : List CartItem) : ℚ :=
  if method ≠ PaymentMethod.CASH then 0
  else max 0 (receivedAmount cashReceived - total cart)

/-- The `isPaymentValid` memo: empty cart is invalid; CASH requires
`received >= total`; other methods are always valid. -/
def isPaymentValid (cart : List CartItem) (method : PaymentMethod) (cashReceived : String) : Bool :=
  if cart.isEmpty then false
  else if method = PaymentMethod.CASH then decide (receivedAmount cashReceived ≥ total cart)
  else true

/-! ## Cart operations (`POS.tsx` lines 94-174) -/

/-- `getStockStatus`: the quantity of `productId` already in the cart
(`cartItem ? cartItem.quantity : 0`). -/
def inCartQuantity (cart : List CartItem) (productId : String) : ℤ :=
  match cart.find? (fun item => item.id == productId) with
  | some item => item.quantity
  | none => 0

/-- `handleAddToCart`: reject when `available = stock - inCart <= 0`;
otherwise increment the existing line or append a fresh line with
quantity 1. The UI only ever passes products of the catalog, so the
operation takes the product id and looks the product up. -/
def handleAddToCart (products : List Product) (cart : List CartItem) (productId : String) :
    List CartItem :=
  match products.find? (fun p => p.id == productId) with
  | none => cart
  | some product =>
    if product.stock - inCartQuantity cart product.id ≤ 0 then cart
    else if (cart.find? (fun item => item.id == product.id)).isSome then
      cart.map (fun item =>
        if item.id == product.id then { item with quantity := item.quantity + 1 } else item)
    else cart ++ [product.toCartItem 1]

/-- `handleUpdateQuantity`: no-op when the line is absent; when
`delta > 0` and the catalog product exists with `item.quantity >= stock`
the update is rejected ("Max stock reached"); otherwise each matching
line gets `quantity + delta` unless that would be `<= 0`, in which case
the line is left as is. -/
def handleUpdateQuantity (products : List Product) (cart : List CartItem)
    (id : String) (delta : ℤ) : List CartItem :=
  match cart.find? (fun item => item.id == id) with
  | none => cart
  | some item =>
    if decide (delta > 0) &&
        (match products.find? (fun p => p.id == id) with
         | some product => decide (item.quantity ≥ product.stock)
         | none => false) then cart
    else
      cart.map (fun it =>
        if it.id == id then
          if it.quantity + delta > 0 then { it with quantity := it.quantity + delta } else it
        else it)

/-- `handleRemoveFromCart`: `prev.filter(item => item.id !== id)`. -/
def handleRemoveFromCart (cart : List CartItem) (id : String) : List CartItem :=
  cart.filter (fun item => item.id != id)

/-- One user-level cart mutation. -/
inductive CartOp
  | addItem (productId : String)
  | changeQuantity (productId : String) (delta : ℤ)
  | removeItem (productId : String)
deriving DecidableEq, Repr

/-- Dispatch of a cart mutation to its handler. -/
def applyCartOp (products : List Product) (cart : List CartItem) : CartOp → List CartItem
  | CartOp.addItem pid => handleAddToCart products cart pid
  | CartOp.changeQuantity pid delta => handleUpdateQuantity products cart pid delta
  | CartOp.removeItem pid => handleRemoveFromCart cart pid

/-- Run a sequence of cart mutations starting from the empty cart. -/
def runCartOps (products : List Product) (ops : List CartOp) : List CartItem :=
  ops.foldl (applyCartOp products) []

/-- The UI dispatches `handleUpdateQuantity` only with `delta = 1` or
`delta = -1`; this records that the delta of a quantity change does not
exceed 1. -/
def deltaAtMostOne : CartOp → Bool
  | CartOp.changeQuantity _ d => decide (d ≤ 1)
  | _ => true

/-! ## Helper lemmas -/

theorem foldl_add_map {α M : Type} [AddCommMonoid M] (f : α → M) :
    ∀ (l : List α) (a : M), l.foldl (fun s x => s + f x) a = a + (l.map f).sum := by
  intro l
  induction l with
  | nil => intro a; simp
  | cons x xs ih =>
    intro a
    rw [List.foldl_cons, ih, List.map_cons, List.sum_cons, add_assoc]

/-- Claim C4: the derived totals of the cart satisfy
`subtotal = Σ price × quantity`, `tax = subtotal × 0.11`,
`total = subtotal + tax = subtotal × 1.11`, and
`totalItems = Σ quantity` (exact arithmetic over `ℚ`). -/
theorem C4_cart_totals (cart : List CartItem) :
    subtotal cart = (cart.map (fun item => item.price * (item.quantity : ℚ))).sum ∧
    tax cart = subtotal cart * (11 / 100) ∧
    total cart = subtotal cart + tax cart ∧
    total cart = subtotal cart * (111 / 100) ∧
    totalItems cart = (cart.map (fun item => item.quantity)).sum := by
  refine ⟨?_, rfl, rfl, ?_, ?_⟩
  · rw [subtotal, foldl_add_map, zero_add]
  · rw [total, tax]; ring
  · rw [totalItems, foldl_add_map, zero_add]

/-- Claim C2: `isPaymentValid` holds exactly when the cart is non-empty
and (the method is not CASH or the parsed cash covers the total); in
particular an empty cart is never valid. -/
theorem C2_payment_validity (cart : List CartItem) (method : PaymentMethod)
    (cashReceived : String) :
    (isPaymentValid cart method cashReceived = true ↔
      cart ≠ [] ∧ (method ≠ PaymentMethod.CASH ∨ receivedAmount cashReceived ≥ total cart)) ∧
    isPaymentValid [] method cashReceived = false := by
  constructor
  · unfold isPaymentValid
    rcases cart with - | ⟨item, rest⟩
    · simp
    · cases method <;> simp [List.isEmpty]
  · rfl

/-- Claim C3: for non-CASH methods the change is 0; for CASH the change
is `max 0 (received - total)`, and whenever the payment is valid
(`received ≥ total`) the change is exactly `received - total`. -/
theorem C3_change_amount (cart : List CartItem) (cashReceived : String) :
    (∀ method : PaymentMethod, method ≠ PaymentMethod.CASH →
      change method cashReceived cart = 0) ∧
    change PaymentMethod.CASH cashReceived cart =
      max 0 (receivedAmount cashReceived - total cart) ∧
    (receivedAmount cashReceived ≥ total cart →
      change PaymentMethod.CASH cashReceived cart =
        receivedAmount cashReceived - total cart) := by
  refine ⟨?_, ?_, ?_⟩
  · intro method h
    simp [change, h]
  · simp [change]
  · intro h
    simp only [change]
    rw [if_neg (by simp)]
    exact max_eq_right (sub_nonneg.mpr h)

/-- Witness for C3 at a concrete input: cash "100" against the empty
cart is a valid CASH payment, with change 100. -/
theorem C3_change_amount_witness :
    change PaymentMethod.CASH "100" [] = receivedAmount "100" - total [] :=
  (C3_change_amount [] "100").2.2 (by
    have h1 : receivedAmount "100" = 100 := rfl
    have h2 : total [] = 0 := by simp [total, tax, subtotal]
    rw [h1, h2]; norm_num)

/-! ## The cart invariant (claim C1) -/

/-- Invariant of the in-progress cart: line ids are pairwise distinct,
every line has quantity at least 1, and every line refers to a catalog
product whose stock bounds the quantity. -/
def CartInv (products : List Product) (cart : List CartItem) : Prop :=
  (cart.map (fun item => item.id)).Nodup ∧
  ∀ item ∈ cart, 1 ≤ item.quantity ∧
    ∃ p ∈ products, p.id = item.id ∧ item.quantity ≤ p.stock

theorem map_id_of_id_preserved {g : CartItem → CartItem}
    (hg : ∀ item : CartItem, (g item).id = item.id) (cart : List CartItem) :
    (cart.map g).map (fun item => item.id) = cart.map (fun item => item.id) := by
  induction cart with
  | nil => rfl
  | cons a l ih => simp [hg, ih]

theorem cartInv_add (products : List Product) (cart : List CartItem) (pid : String)
    (h : CartInv products cart) : CartInv products (handleAddToCart products cart pid) := by
  obtain ⟨hnd, hitems⟩ := h
  unfold handleAddToCart
  cases hfp : products.find? (fun p => p.id == pid) with
  | none => exact ⟨hnd, hitems⟩
  | some product =>
    dsimp only
    have hpmem : product ∈ products := List.mem_of_find?_eq_some hfp
    by_cases hav : product.stock - inCartQuantity cart product.id ≤ 0
    · rw [if_pos hav]; exact ⟨hnd, hitems⟩
    · rw [if_neg hav]
      cases hfc : cart.find? (fun item => item.id == product.id) with
      | some item0 =>
        have hcond : (some item0).isSome = true := rfl
        rw [if_pos hcond]
        have hq0 : inCartQuantity cart product.id = item0.quantity := by
          simp [inCartQuantity, hfc]
        have hmem0 : item0 ∈ cart := List.mem_of_find?_eq_some hfc
        have hid0 : item0.id = product.id := by
          simpa using List.find?_some hfc
        constructor
        · rw [map_id_of_id_preserved]
          · exact hnd
          · intro item
            by_cases hid : item.id == product.id <;> simp [hid]
        · intro item' hmem'
          obtain ⟨item, hitem, rfl⟩ := List.mem_map.mp hmem'
          by_cases hid : item.id == product.id
          · have hiid : item.id = product.id := eq_of_beq hid
            have hii : item = item0 := by
              refine List.inj_on_of_nodup_map hnd hitem hmem0 ?_
              rw [hiid, hid0]
            rw [if_pos hid]
            refine ⟨?_, product, hpmem, ?_, ?_⟩
            · have := (hitems item hitem).1
              simp only []
              omega
            · simp [hiid]
            · simp only []
              rw [hq0] at hav
              rw [hii]
              omega
          · rw [if_neg hid]
            exact hitems item hitem
      | none =>
        rw [if_neg (by simp)]
        have hnone : ∀ item ∈ cart, ¬(item.id == product.id) := List.find?_eq_none.mp hfc
        have hq0 : inCartQuantity cart product.id = 0 := by
          simp [inCartQuantity, hfc]
        rw [hq0] at hav
        constructor
        · rw [List.map_append]
          refine List.nodup_append.mpr ⟨hnd, by simp, ?_⟩
          intro x hx
          obtain ⟨item, hitem, rfl⟩ := List.mem_map.mp hx
          simp only [List.map_cons, List.map_nil, List.mem_singleton, Product.toCartItem]
          intro hxeq
          exact hnone item hitem (beq_iff_eq.mpr hxeq)
        · intro item hitem
          rcases List.mem_append.mp hitem with hold | hnew
          · exact hitems item hold
          · rw [List.mem_singleton.mp hnew]
            refine ⟨le_refl 1, product, hpmem, rfl, ?_⟩
            show (1 : ℤ) ≤ product.stock
            omega

theorem cartInv_update (products : List Product) (cart : List CartItem)
    (id : String) (delta : ℤ) (hdelta : delta ≤ 1)
    (hp : (products.map (fun p => p.id)).Nodup)
    (h : CartInv products cart) :
    CartInv products (handleUpdateQuantity products cart id delta) := by
  obtain ⟨hnd, hitems⟩ := h
  unfold handleUpdateQuantity
  cases hfc : cart.find? (fun item => item.id == id) with
  | none => exact ⟨hnd, hitems⟩
  | some item =>
    dsimp only
    have hmem0 : item ∈ cart := List.mem_of_find?_eq_some hfc
    have hid0 : item.id = id := by simpa using List.find?_some hfc
    by_cases hb : (decide (delta > 0) &&
        (match products.find? (fun p => p.id == id) with
         | some product => decide (item.quantity ≥ product.stock)
         | none => false)) = true
    · rw [if_pos hb]; exact ⟨hnd, hitems⟩
    · rw [if_neg hb]
      constructor
      · rw [map_id_of_id_preserved]
        · exact hnd
        · intro it
          by_cases hid : it.id == id <;>
            by_cases hq : it.quantity + delta > 0 <;> simp [hid, hq]
      · intro item' hmem'
        obtain ⟨it, hit, rfl⟩ := List.mem_map.mp hmem'
        by_cases hid : it.id == id
        · have hiid : it.id = id := eq_of_beq hid
          have hii : it = item := by
            refine List.inj_on_of_nodup_map hnd hit hmem0 ?_
            rw [hiid, hid0]
          rw [if_pos hid]
          by_cases hq : it.quantity + delta > 0
          · rw [if_pos hq]
            obtain ⟨h1, p0, hp0, hpid0, hb0⟩ := hitems it hit
            refine ⟨by simp only []; omega, p0, hp0, by simp [hpid0], ?_⟩
            simp only []
            by_cases hd : delta ≤ 0
            · omega
            · -- delta = 1; the stock check must have passed
              have hdpos : delta > 0 := by omega
              cases hfp : products.find? (fun p => p.id == id) with
              | none =>
                exfalso
                have := List.find?_eq_none.mp hfp p0 hp0
                rw [hpid0, hiid] at this
                simp at this
              | some q =>
                have hqmem : q ∈ products := List.mem_of_find?_eq_some hfp
                have hqid : q.id = id := by simpa using List.find?_some hfp
                have hqp0 : q = p0 := by
                  refine List.inj_on_of_nodup_map hp hqmem hp0 ?_
                  rw [hqid, hpid0, hiid]
                rw [hfp] at hb
                have hngq : ¬(item.quantity ≥ q.stock) := by
                  intro hge
                  exact hb (by simp [hdpos, hge])
                rw [hqp0] at hngq
                rw [hii]
                omega
          · rw [if_neg hq]
            exact hitems it hit
        · rw [if_neg hid]
          exact hitems it hit

theorem cartInv_remove (products : List Product) (cart : List CartItem) (id : String)
    (h : CartInv products cart) : CartInv products (handleRemoveFromCart cart id) := by
  obtain ⟨hnd, hitems⟩ := h
  constructor
  · exact ((List.filter_sublist cart).map (fun item => item.id)).nodup hnd
  · intro item hitem
    exact hitems item (List.mem_of_mem_filter hitem)

theorem cartInv_run (products : List Product) (hp : (products.map (fun p => p.id)).Nodup)
    (ops : List CartOp) (hd : ∀ op ∈ ops, deltaAtMostOne op = true) :
    ∀ cart, CartInv products cart → CartInv products (ops.foldl (applyCartOp products) cart) := by
  induction ops with
  | nil => intro cart h; exact h
  | cons op rest ih =>
    intro cart h
    rw [List.foldl_cons]
    refine ih (fun o ho => hd o (List.mem_cons_of_mem op ho)) _ ?_
    cases op with
    | addItem pid => exact cartInv_add products cart pid h
    | changeQuantity pid delta =>
      have hdle : delta ≤ 1 := by
        have := hd _ (List.mem_cons_self _ _)
        simpa [deltaAtMostOne] using this
      exact cartInv_update products cart pid delta hdle hp h
    | removeItem pid => exact cartInv_remove products cart pid h

/-- Claim C1 (amended): over a catalog with pairwise distinct product
ids, for every sequence of `addItem`/`changeQuantity`/`removeItem`
operations **whose quantity-change deltas are at most 1** (the UI only
ever dispatches `+1`/`-1`), every cart line's quantity stays at least 1
and never exceeds the referenced product's stock. Without the delta
restriction the claim fails, see the counterexample. -/
theorem C1_cart_quantity_bounds (products : List Product)
    (hp : (products.map (fun p => p.id)).Nodup)
    (ops : List CartOp) (hd : ∀ op ∈ ops, deltaAtMostOne op = true) :
    ∀ item ∈ runCartOps products ops,
      1 ≤ item.quantity ∧ ∀ p ∈ products, p.id = item.id → item.quantity ≤ p.stock := by
  have hinv : CartInv products (runCartOps products ops) := by
    refine cartInv_run products hp ops hd [] ?_
    exact ⟨List.nodup_nil, by intro item h; cases h⟩
  intro item hitem
  obtain ⟨h1, p0, hp0, hpid0, hb0⟩ := hinv.2 item hitem
  refine ⟨h1, ?_⟩
  intro p hpm hpid
  have : p = p0 := by
    refine List.inj_on_of_nodup_map hp hpm hp0 ?_
    rw [hpid, hpid0]
  rw [this]
  exact hb0

/-- The single mock product used in the concrete cart scenarios (stock
lowered to 2 to keep the scenario short). -/
def c1Products : List Product :=
  [⟨"1", "Premium Rice 5kg", "Food", 65000, 50000, 2, 10, "RICE-001", "Bag"⟩]

/-- Counterexample to claim C1 as stated: with one product of stock 2,
`addItem` followed by `changeQuantity` with `delta = 2` passes the
source's `item.quantity >= product.stock` guard (1 < 2) and leaves a
line of quantity 3, exceeding the stock of 2. -/
theorem C1_counterexample :
    ∃ item ∈ runCartOps c1Products [CartOp.addItem "1", CartOp.changeQuantity "1" 2],
      ∃ p ∈ c1Products, p.id = item.id ∧ p.stock < item.quantity := by decide

/-- Witness instantiating C1 on a concrete catalog and `±1` operations:
after `addItem` then `changeQuantity(+1)` the rice line holds quantity 2,
within the stock of 2. -/
theorem C1_cart_quantity_bounds_witness :
    1 ≤ (⟨"1", "Premium Rice 5kg", "Food", 65000, 50000, 2, 10, "RICE-001", "Bag", 2⟩ :
        CartItem).quantity ∧
    (⟨"1", "Premium Rice 5kg", "Food", 65000, 50000, 2, 10, "RICE-001", "Bag", 2⟩ :
        CartItem).quantity ≤
      (⟨"1", "Premium Rice 5kg", "Food", 65000, 50000, 2, 10, "RICE-001", "Bag"⟩ :
        Product).stock := by
  have h := C1_cart_quantity_bounds c1Products (by decide)
    [CartOp.addItem "1", CartOp.changeQuantity "1" 1] (by decide)
  obtain ⟨h1, h2⟩ := h
    (⟨"1", "Premium Rice 5kg", "Food", 65000, 50000, 2, 10, "RICE-001", "Bag", 2⟩ : CartItem)
    (by decide)
  exact ⟨h1, h2 _ (by decide) rfl⟩

/-! ## Recording a completed sale (`App.tsx`, `handleTransactionComplete`) -/

/-- The per-product update inside `products.map(...)`: if a sold line
matches the product's id, decrement the stock by the sold quantity. -/
def soldAdjust (items : List CartItem) (product : Product) : Product :=
  match items.find? (fun item => item.id == product.id) with
  | some soldItem => { product with stock := product.stock - soldItem.quantity }
  | none => product

/-- `setProducts(updatedProducts)`: the catalog after a sale. -/
def applySale (items : List CartItem) (products : List Product) : List Product :=
  products.map (soldAdjust items)

/-- The contribution of one catalog product to the accumulated
`transactionCost` (`product.cost * soldItem.quantity` when a line
matches, else nothing). -/
def saleContribution (items : List CartItem) (product : Product) : ℚ :=
  match items.find? (fun item => item.id == product.id) with
  | some soldItem => product.cost * (soldItem.quantity : ℚ)
  | none => 0

/-- The `transactionCost` accumulated over the `products.map` loop. -/
def transactionCost (items : List CartItem) (products : List Product) : ℚ :=
  (products.map (saleContribution items)).sum

/-- Modelled from the spec's words ("transactionCost = Σ product.cost ×
quantity over the sold lines"): the same cost computed per sold line,
looking each line's product up in the catalog. Compared against
`transactionCost`, which is what the source computes per product. -/
def lineCOGS (items : List CartItem) (products : List Product) : ℚ :=
  (items.map (fun item =>
    match products.find? (fun p => p.id == item.id) with
    | some p => p.cost * (item.quantity : ℚ)
    | none => 0)).sum

/-- The `setSummary` update of `handleTransactionComplete`. -/
def updateSummaryOnSale (s : FinancialSummary) (newRevenue cost : ℚ) : FinancialSummary :=
  { s with
    revenue := s.revenue + newRevenue,
    cogs := s.cogs + cost,
    grossProfit := s.grossProfit + (newRevenue - cost),
    netProfit := s.netProfit + (newRevenue - cost) }

/-- `handleTransactionComplete`: append the transaction to the journal
(not modelled further), decrement stocks, and fold the revenue/COGS into
the running summary. Returns the new summary and catalog. -/
def handleTransactionComplete (s : FinancialSummary) (products : List Product)
    (t : Transaction) : FinancialSummary × List Product :=
  (updateSummaryOnSale s t.subtotal (transactionCost t.items products),
   applySale t.items products)

/-- One ledger step as a state transition on (summary, catalog). -/
def stepSale (sp : FinancialSummary × List Product) (t : Transaction) :
    FinancialSummary × List Product :=
  handleTransactionComplete sp.1 sp.2 t

/-- Claim C5: with pairwise-distinct line ids (as the cart guarantees),
recording a sale maps each catalog product to itself except that a
product matched by a sold line loses exactly that line's quantity of
stock; all non-stock fields and all unmatched products are unchanged. -/
theorem C5_sale_stock_frame (items : List CartItem) (products : List Product)
    (hitems : (items.map (fun item => item.id)).Nodup) :
    List.Forall₂ (fun p q : Product =>
      q.id = p.id ∧ q.name = p.name ∧ q.category = p.category ∧ q.price = p.price ∧
      q.cost = p.cost ∧ q.reorderPoint = p.reorderPoint ∧ q.sku = p.sku ∧ q.unit = p.unit ∧
      ((∀ item ∈ items, item.id ≠ p.id) → q = p) ∧
      (∀ item ∈ items, item.id = p.id → q.stock = p.stock - item.quantity))
      products (applySale items products) := by
  rw [applySale, List.forall₂_map_right_iff]
  rw [List.forall₂_same]
  intro p hp
  unfold soldAdjust
  cases hf : items.find? (fun item => item.id == p.id) with
  | none =>
    have hnone := List.find?_eq_none.mp hf
    refine ⟨rfl, rfl, rfl, rfl, rfl, rfl, rfl, rfl, fun _ => rfl, ?_⟩
    intro item hitem hid
    exact absurd (beq_iff_eq.mpr hid) (hnone item hitem)
  | some soldItem =>
    have hmem : soldItem ∈ items := List.mem_of_find?_eq_some hf
    have hid : soldItem.id = p.id := by simpa using List.find?_some hf
    refine ⟨rfl, rfl, rfl, rfl, rfl, rfl, rfl, rfl, ?_, ?_⟩
    · intro hno
      exact absurd hid (hno soldItem hmem)
    · intro item hitem hiid
      have : item = soldItem :=
        List.inj_on_of_nodup_map hitems hitem hmem (by rw [hiid, hid])
      rw [this]

/-- Witness instantiating C5: selling two units of the mock rice
decrements its stock from 24 to 22 and leaves the oil untouched. -/
theorem C5_sale_stock_frame_witness :
    List.Forall₂ (fun p q : Product =>
      q.id = p.id ∧ q.name = p.name ∧ q.category = p.category ∧ q.price = p.price ∧
      q.cost = p.cost ∧ q.reorderPoint = p.reorderPoint ∧ q.sku = p.sku ∧ q.unit = p.unit ∧
      ((∀ item ∈ [(⟨"1", "Premium Rice 5kg", "Food", 65000, 50000, 24, 10, "RICE-001", "Bag",
          2⟩ : CartItem)], item.id ≠ p.id) → q = p) ∧
      (∀ item ∈ [(⟨"1", "Premium Rice 5kg", "Food", 65000, 50000, 24, 10, "RICE-001", "Bag",
          2⟩ : CartItem)], item.id = p.id → q.stock = p.stock - item.quantity))
      [⟨"1", "Premium Rice 5kg", "Food", 65000, 50000, 24, 10, "RICE-001", "Bag"⟩,
       ⟨"2", "Cooking Oil 2L", "Food", 35000, 28000, 8, 15, "OIL-002", "Bottle"⟩]
      (applySale
        [⟨"1", "Premium Rice 5kg", "Food", 65000, 50000, 24, 10, "RICE-001", "Bag", 2⟩]
        [⟨"1", "Premium Rice 5kg", "Food", 65000, 50000, 24, 10, "RICE-001", "Bag"⟩,
         ⟨"2", "Cooking Oil 2L", "Food", 35000, 28000, 8, 15, "OIL-002", "Bottle"⟩]) :=
  C5_sale_stock_frame _ _ (by decide)

theorem lineCOGS_nil (items : List CartItem) : lineCOGS items [] = 0 := by
  unfold lineCOGS
  induction items with
  | nil => rfl
  | cons item rest ih => simp [ih]

theorem lineCOGS_cons_skip (items : List CartItem) (p : Product) (ps : List Product)
    (h : ∀ item ∈ items, item.id ≠ p.id) :
    lineCOGS items (p :: ps) = lineCOGS items ps := by
  unfold lineCOGS
  congr 1
  refine List.map_congr_left ?_
  intro item hitem
  rw [List.find?_cons_of_neg]
  simp only [beq_iff_eq]
  intro hpe
  exact h item hitem hpe.symm

theorem saleContribution_of_no_match (items : List CartItem) (p : Product)
    (h : ∀ item ∈ items, item.id ≠ p.id) : saleContribution items p = 0 := by
  unfold saleContribution
  rw [List.find?_eq_none.mpr]
  intro item hitem
  simp only [beq_iff_eq]
  exact h item hitem

theorem lineCOGS_cons (p : Product) (ps : List Product)
    (hpid : p.id ∉ ps.map (fun q => q.id)) :
    ∀ items : List CartItem, (items.map (fun item => item.id)).Nodup →
      lineCOGS items (p :: ps) = saleContribution items p + lineCOGS items ps := by
  intro items
  induction items with
  | nil =>
    intro _
    rw [saleContribution_of_no_match]
    · simp [lineCOGS]
    · intro item hitem; cases hitem
  | cons l ls ih =>
    intro hnd
    have hnd' : (ls.map (fun item => item.id)).Nodup := (List.nodup_cons.mp hnd).2
    have hlnotin : l.id ∉ ls.map (fun item => item.id) := (List.nodup_cons.mp hnd).1
    by_cases hl : l.id = p.id
    · -- the head line matches the head product
      have hfind : (p :: ps).find? (fun q => q.id == l.id) = some p :=
        List.find?_cons_of_pos _ (by simp [hl])
      have hcontrib : saleContribution (l :: ls) p = p.cost * (l.quantity : ℚ) := by
        unfold saleContribution
        rw [List.find?_cons_of_pos _ (by simp [hl])]
      have hlsnone : ∀ item ∈ ls, item.id ≠ p.id := by
        intro item hitem heq
        exact hlnotin (by
          rw [← hl] at heq
          exact heq ▸ List.mem_map_of_mem (fun item => item.id) hitem)
      have hskip : lineCOGS ls (p :: ps) = lineCOGS ls ps := lineCOGS_cons_skip ls p ps hlsnone
      have hlps : ps.find? (fun q => q.id == l.id) = none := by
        rw [List.find?_eq_none]
        intro q hq
        simp only [beq_iff_eq]
        intro hqid
        apply hpid
        have hmm : q.id ∈ ps.map (fun q => q.id) := List.mem_map_of_mem (fun q => q.id) hq
        rw [hqid, hl] at hmm
        exact hmm
      unfold lineCOGS
      simp only [List.map_cons, List.sum_cons]
      rw [hfind, hlps]
      have : lineCOGS ls (p :: ps) = lineCOGS ls ps := hskip
      unfold lineCOGS at this
      rw [this, hcontrib]
      ring_nf
      rw [saleContribution_of_no_match ls p hlsnone] at *
      ring
    · -- head line does not match the head product
      have hfind : (p :: ps).find? (fun q => q.id == l.id) = ps.find? (fun q => q.id == l.id) := by
        rw [List.find?_cons_of_neg]
        simp only [beq_iff_eq]
        intro hpe
        exact hl hpe.symm
      have hcontrib : saleContribution (l :: ls) p = saleContribution ls p := by
        unfold saleContribution
        rw [List.find?_cons_of_neg]
        simp only [beq_iff_eq]
        exact hl
      unfold lineCOGS
      simp only [List.map_cons, List.sum_cons]
      rw [hfind, hcontrib]
      have := ih hnd'
      unfold lineCOGS at this
      rw [this]
      ring

theorem transactionCost_eq_lineCOGS (items : List CartItem) (products : List Product)
    (hp : (products.map (fun q => q.id)).Nodup)
    (hitems : (items.map (fun item => item.id)).Nodup) :
    transactionCost items products = lineCOGS items products := by
  induction products with
  | nil => rw [lineCOGS_nil]; rfl
  | cons p ps ih =>
    have hp' : (ps.map (fun q => q.id)).Nodup := (List.nodup_cons.mp hp).2
    have hpid : p.id ∉ ps.map (fun q => q.id) := (List.nodup_cons.mp hp).1
    rw [lineCOGS_cons p ps hpid items hitems]
    unfold transactionCost
    simp only [List.map_cons, List.sum_cons]
    rw [← ih hp']
    rfl

theorem transactionCost_applySale (items its2 : List CartItem) (products : List Product) :
    transactionCost items (applySale its2 products) = transactionCost items products := by
  unfold transactionCost applySale
  rw [List.map_map]
  congr 1
  refine List.map_congr_left ?_
  intro p hp
  show saleContribution items (soldAdjust its2 p) = saleContribution items p
  unfold saleContribution soldAdjust
  cases hf : its2.find? (fun item => item.id == p.id) with
  | none => rfl
  | some soldItem => rfl

/-- Claim C6: a recorded sale updates the summary by
`revenue += subtotal` (tax excluded), `cogs += transactionCost`,
`grossProfit += subtotal - transactionCost`,
`netProfit += subtotal - transactionCost`, leaving expenses unchanged;
the accumulated `transactionCost` equals the per-line
Σ `product.cost × quantity` (given distinct catalog ids and distinct
line ids); and the summary after two sales is independent of their
order. -/
theorem C6_summary_update (s : FinancialSummary) (products : List Product)
    (t t2 : Transaction)
    (hp : (products.map (fun q => q.id)).Nodup)
    (hitems : (t.items.map (fun item => item.id)).Nodup) :
    ((handleTransactionComplete s products t).1.revenue = s.revenue + t.subtotal ∧
     (handleTransactionComplete s products t).1.cogs
       = s.cogs + transactionCost t.items products ∧
     (handleTransactionComplete s products t).1.grossProfit
       = s.grossProfit + (t.subtotal - transactionCost t.items products) ∧
     (handleTransactionComplete s products t).1.netProfit
       = s.netProfit + (t.subtotal - transactionCost t.items products) ∧
     (handleTransactionComplete s products t).1.expenses = s.expenses) ∧
    transactionCost t.items products = lineCOGS t.items products ∧
    (stepSale (stepSale (s, products) t) t2).1 = (stepSale (stepSale (s, products) t2) t).1 := by
  refine ⟨⟨rfl, rfl, rfl, rfl, rfl⟩, transactionCost_eq_lineCOGS _ _ hp hitems, ?_⟩
  simp only [stepSale, handleTransactionComplete]
  rw [transactionCost_applySale, transactionCost_applySale]
  unfold updateSummaryOnSale
  obtain ⟨r, c, g, e, n⟩ := s
  simp only [FinancialSummary.mk.injEq]
  refine ⟨by ring, by ring, by ring, trivial, by ring⟩

/-- Concrete data for the C6 witness: the seed summary, a one-product
catalog, a two-unit rice sale and an empty QRIS sale. -/
def c6Summary : FinancialSummary := ⟨15400000, 9800000, 5600000, 2100000, 3500000⟩

def c6Products : List Product :=
  [⟨"1", "Premium Rice 5kg", "Food", 65000, 50000, 24, 10, "RICE-001", "Bag"⟩]

def c6T : Transaction :=
  ⟨"t1", "2026-01-01", [⟨"1", "Premium Rice 5kg", "Food", 65000, 50000, 24, 10, "RICE-001",
    "Bag", 2⟩], 130000, 14300, 144300, PaymentMethod.CASH⟩

def c6T2 : Transaction := ⟨"t2", "2026-01-02", [], 0, 0, 0, PaymentMethod.QRIS⟩

/-- Witness instantiating C6 on concrete data (the per-line and
per-product COGS agree for the two-unit rice sale). -/
theorem C6_summary_update_witness :
    transactionCost c6T.items c6Products = lineCOGS c6T.items c6Products :=
  (C6_summary_update c6Summary c6Products c6T c6T2 (by decide) (by decide)).2.1

/-! ## Import staging pipeline (`pages/DataManagement.tsx`) -/

/-- Validation status of a staged record (`'PENDING' | 'VALID' | 'ERROR'`). -/
inductive StagedStatus
  | PENDING
  | VALID
  | ERROR
deriving DecidableEq, Repr

/-- Source of a staged record (`'CSV_IMPORT' | 'AI_OCR'`). -/
inductive StagedSource
  | CSV_IMPORT
  | AI_OCR
deriving DecidableEq, Repr

/-- One item of the OCR oracle's `items` array. -/
structure OcrItem where
  name : String
  price : ℚ
  quantity : ℚ
deriving DecidableEq, Repr

/-- The parsed JSON reply of `analyzeUploadedDocument`: optional `date`,
`supplier`, `total`, `items`, or an `error` field. -/
structure OcrResult where
  error : Option String
  date : Option String
  supplier : Option String
  total : Option ℚ
  items : Option (List OcrItem)
deriving DecidableEq, Repr

/-- The `rawParams` of a staged record: the raw CSV field map for CSV
rows, or the oracle reply for OCR records. -/
inductive RawParams
  | csv (row : List (String × Option String))
  | ocr (result : OcrResult)
deriving DecidableEq, Repr

/-- A staged import record (`StagedTransaction` in `types.ts`, fields as
constructed in `handleFileUpload`). `date`/`supplierOrCustomer` are
optional because `rawRow[key]` can be `undefined` for a short CSV row. -/
structure StagedTransaction where
  id : String
  source : StagedSource
  date : Option String
  supplierOrCustomer : Option String
  totalAmount : ℚ
  itemsSummary : String
  status : StagedStatus
  validationError : Option String
  rawParams : RawParams
deriving DecidableEq, Repr

/-- `formatHeader` word step: `charAt(0).toUpperCase() + slice(1).toLowerCase()`. -/
def capitalizeWord (w : String) : String :=
  match w.data with
  | [] => ""
  | c :: rest => String.mk (c.toUpper :: rest.map Char.toLower)

/-- `formatHeader`: snake_case to Title Case (`"gaji_pokok"` to
`"Gaji Pokok"`). -/
def formatHeader (header : String) : String :=
  String.intercalate " " ((jsSplit '_' header).map capitalizeWord)

/-- JS object lookup `row[key]` for the raw field map, where the map was
built by repeated assignment (a later duplicate header overwrites an
earlier one, hence `getLast?`). -/
def objGet (row : List (String × Option String)) (key : String) : Option String :=
  match (row.filter (fun p => p.1 == key)).getLast? with
  | some p => p.2
  | none => none

/-- The `headers.forEach((header, index) => rawRow[header] =
values[index]?.trim())` loop as an association list. -/
def buildRawRow (headers values : List String) : List (String × Option String) :=
  headers.enum.map (fun p => (p.2, (values.get? p.1).map jsTrim))

/-- JS truthiness of an optional string (`undefined` and `""` are falsy). -/
def isFalsyStr (v : Option String) : Bool :=
  match v with
  | none => true
  | some s => s == ""

/-- `!value || value.toString().trim() === ''` (the blank check of the
required-field rule). -/
def isBlankOpt (v : Option String) : Bool :=
  match v with
  | none => true
  | some s => jsTrim s == ""

/-- Result record of `smartValidate`: `{ status, error? }`. -/
structure ValidationResult where
  status : StagedStatus
  error : Option String
deriving DecidableEq, Repr

/-- `smartValidate`: scan the headers in order; an identifier-like
header (`id`/`name`/`nama`/`sku`) requires a non-blank value; an
amount-like header (`amount`/`price`/`gaji`/`salary`/`total`) must parse
to a non-negative number after stripping non-numeric characters (a falsy
value parses as `"0"`); a date-like header (`date`/`tanggal`) must be
truthy and accepted by `Date.parse` (the `dateOk` oracle). The first
failing rule yields ERROR with its message; otherwise VALID. -/
def smartValidate (dateOk : String → Bool) (row : List (String × Option String)) :
    List String → ValidationResult
  | [] => ⟨StagedStatus.VALID, none⟩
  | key :: rest =>
    let value := objGet row key
    let lowerKey := lowerStr key
    if (strIncludes lowerKey "id" || strIncludes lowerKey "name" ||
        strIncludes lowerKey "nama" || strIncludes lowerKey "sku") && isBlankOpt value then
      ⟨StagedStatus.ERROR, some (formatHeader key ++ " is required")⟩
    else if (strIncludes lowerKey "amount" || strIncludes lowerKey "price" ||
        strIncludes lowerKey "gaji" || strIncludes lowerKey "salary" ||
        strIncludes lowerKey "total") &&
        (match jsParseFloat
            (match value with
             | some v => if v == "" then "0" else stripNonNumeric v
             | none => "0") with
         | none => true
         | some num => decide (num < 0)) then
      ⟨StagedStatus.ERROR, some ("Invalid number in " ++ formatHeader key)⟩
    else if (strIncludes lowerKey "date" || strIncludes lowerKey "tanggal") &&
        (isFalsyStr value || !dateOk ((value).getD "")) then
      ⟨StagedStatus.ERROR, some ("Invalid date in " ++ formatHeader key)⟩
    else smartValidate dateOk row rest

/-- The CSV branch of `handleFileUpload`, for one data line: split on
commas, build the raw field map, validate, detect the amount/date/
description columns by substring heuristics, and stage the record.
`freshId` stands for `crypto.randomUUID()` and `now` for
`new Date().toISOString()`. -/
def mapCsvRow (dateOk : String → Bool) (freshId now : String)
    (headers : List String) (line : String) : StagedTransaction :=
  let values := jsSplit ',' line
  let rawRow := buildRawRow headers values
  let validation := smartValidate dateOk rawRow headers
  let amountKey := headers.find? (fun h =>
    strIncludes (lowerStr h) "amount" || strIncludes (lowerStr h) "total" ||
    strIncludes (lowerStr h) "gaji" || strIncludes (lowerStr h) "price")
  let dateKey := headers.find? (fun h =>
    strIncludes (lowerStr h) "date" || strIncludes (lowerStr h) "tanggal")
  let descKey := headers.find? (fun h =>
    strIncludes (lowerStr h) "name" || strIncludes (lowerStr h) "desc" ||
    strIncludes (lowerStr h) "nama" || strIncludes (lowerStr h) "supplier")
  { id := freshId,
    source := StagedSource.CSV_IMPORT,
    date := match dateKey with
      | some k => objGet rawRow k
      | none => some now,
    supplierOrCustomer := match descKey with
      | some k => objGet rawRow k
      | none => some "Batch Import",
    totalAmount := match amountKey with
      | some k =>
        match objGet rawRow k with
        | some v => (jsParseFloat v).getD 0
        | none => 0
      | none => 0,
    itemsSummary := "CSV Record",
    status := validation.status,
    validationError := validation.error,
    rawParams := RawParams.csv rawRow }

/-- JS `x || d` on an optional string (falsy values fall back to `d`). -/
def jsOrStr (x : Option String) (d : String) : String :=
  match x with
  | some s => if s == "" then d else s
  | none => d

/-- JS truthiness of the optional `total` number (`0` is falsy). -/
def truthyNum (x : Option ℚ) : Bool :=
  match x with
  | none => false
  | some q => !(q == 0)

/-- `result.items ? items.map(i => `${i.quantity}x ${i.name}`).join(', ')
: 'Unknown Items'`. -/
def ocrItemsSummary (items : Option (List OcrItem)) : String :=
  match items with
  | some l => String.intercalate ", " (l.map (fun i => toString i.quantity ++ "x " ++ i.name))
  | none => "Unknown Items"

/-- The OCR branch of `handleFileUpload`: a truthy `result.error` only
raises an alert and leaves the staging list (cleared at the start of the
upload) empty; otherwise exactly one record is staged, VALID when both
`result.total` and `result.date` are truthy. -/
def handleOcrResult (freshId now : String) (result : OcrResult) : List StagedTransaction :=
  if !isFalsyStr result.error then []
  else
    let isValid := truthyNum result.total && !isFalsyStr result.date
    [{ id := freshId,
       source := StagedSource.AI_OCR,
       date := some (jsOrStr result.date now),
       supplierOrCustomer := some (jsOrStr result.supplier "Unknown Supplier"),
       totalAmount := result.total.getD 0,
       itemsSummary := ocrItemsSummary result.items,
       status := if isValid then StagedStatus.VALID else StagedStatus.ERROR,
       validationError := if isValid then none else some "AI could not extract Total or Date",
       rawParams := RawParams.ocr result }]

/-- `handleImportTransactions` in `App.tsx`: every committed amount is
accumulated into expenses and subtracted from net profit. -/
def recordImport (s : FinancialSummary) (staged : List StagedTransaction) : FinancialSummary :=
  { s with
    expenses := s.expenses + (staged.map (fun st => st.totalAmount)).sum,
    netProfit := s.netProfit - (staged.map (fun st => st.totalAmount)).sum }

/-- `handleCommit`: filter the VALID records; with none, alert and keep
everything unchanged; otherwise forward the VALID records to
`recordImport` and keep only the non-VALID records staged. -/
def handleCommit (s : FinancialSummary) (staged : List StagedTransaction) :
    FinancialSummary × List StagedTransaction :=
  if (staged.filter (fun d => d.status == StagedStatus.VALID)).isEmpty then (s, staged)
  else
    (recordImport s (staged.filter (fun d => d.status == StagedStatus.VALID)),
     staged.filter (fun d => d.status != StagedStatus.VALID))

/-- Claim C7: committing with no VALID record changes nothing (a
reported no-op); otherwise exactly the VALID records are forwarded
(expenses grow by the sum of their amounts, net profit shrinks by the
same sum, revenue/COGS/gross profit untouched) and exactly the VALID
records leave staging while every non-VALID record stays. -/
theorem C7_commit_partition (s : FinancialSummary) (staged : List StagedTransaction) :
    (staged.filter (fun d => d.status == StagedStatus.VALID) = [] →
      handleCommit s staged = (s, staged)) ∧
    (staged.filter (fun d => d.status == StagedStatus.VALID) ≠ [] →
      (handleCommit s staged).2 = staged.filter (fun d => d.status != StagedStatus.VALID) ∧
      (∀ d ∈ staged, d.status ≠ StagedStatus.VALID → d ∈ (handleCommit s staged).2) ∧
      (∀ d ∈ (handleCommit s staged).2, d.status ≠ StagedStatus.VALID) ∧
      (handleCommit s staged).1.expenses = s.expenses +
        ((staged.filter (fun d => d.status == StagedStatus.VALID)).map
          (fun st => st.totalAmount)).sum ∧
      (handleCommit s staged).1.netProfit = s.netProfit -
        ((staged.filter (fun d => d.status == StagedStatus.VALID)).map
          (fun st => st.totalAmount)).sum ∧
      (handleCommit s staged).1.revenue = s.revenue ∧
      (handleCommit s staged).1.cogs = s.cogs ∧
      (handleCommit s staged).1.grossProfit = s.grossProfit) := by
  constructor
  · intro h
    unfold handleCommit
    rw [if_pos]
    rw [h]
    rfl
  · intro h
    have hcond : ¬((staged.filter (fun d => d.status == StagedStatus.VALID)).isEmpty = true) := by
      simpa [List.isEmpty_iff] using h
    unfold handleCommit
    rw [if_neg hcond]
    refine ⟨rfl, ?_, ?_, rfl, rfl, rfl, rfl, rfl⟩
    · intro d hd hstat
      refine List.mem_filter.mpr ⟨hd, ?_⟩
      simpa [bne_iff_ne] using hstat
    · intro d hd
      have := (List.mem_filter.mp hd).2
      simpa [bne_iff_ne] using this

/-- Concrete staged batch for the C7 witness: three VALID records of
amounts 100000/250000/75000 and two ERROR records, as in the spec's
commit scenario. -/
def c7Staged : List StagedTransaction :=
  [⟨"a", StagedSource.CSV_IMPORT, some "2026-01-01", some "Vendor A", 100000, "CSV Record",
     StagedStatus.VALID, none, RawParams.csv []⟩,
   ⟨"b", StagedSource.CSV_IMPORT, some "2026-01-02", some "Vendor B", 250000, "CSV Record",
     StagedStatus.VALID, none, RawParams.csv []⟩,
   ⟨"c", StagedSource.CSV_IMPORT, none, some "Vendor C", 0, "CSV Record",
     StagedStatus.ERROR, some "Invalid number in Amount", RawParams.csv []⟩,
   ⟨"d", StagedSource.CSV_IMPORT, some "2026-01-03", some "Vendor D", 75000, "CSV Record",
     StagedStatus.VALID, none, RawParams.csv []⟩,
   ⟨"e", StagedSource.CSV_IMPORT, none, none, 0, "CSV Record",
     StagedStatus.ERROR, some "Name is required", RawParams.csv []⟩]

def c7Summary : FinancialSummary := ⟨15400000, 9800000, 5600000, 2100000, 3500000⟩

/-- Witness instantiating C7: committing the 3-VALID/2-ERROR batch adds
exactly the three valid amounts to expenses. -/
theorem C7_commit_partition_witness :
    (handleCommit c7Summary c7Staged).1.expenses = c7Summary.expenses +
      ((c7Staged.filter (fun d => d.status == StagedStatus.VALID)).map
        (fun st => st.totalAmount)).sum :=
  (((((C7_commit_partition c7Summary c7Staged).2 (by decide)).2).2).2).1

/-- Claim C8: the CSV row `RICE-005,Premium Rice,65000,24` under headers
`sku,name,price,stock` validates VALID, and with price `-5` it validates
ERROR with a reason citing the Price field — independently of the
`Date.parse` oracle, since no header is date-like. -/
theorem C8_csv_row_validation :
    ∀ dateOk : String → Bool,
      smartValidate dateOk
        (buildRawRow ["sku", "name", "price", "stock"]
          (jsSplit ',' "RICE-005,Premium Rice,65000,24"))
        ["sku", "name", "price", "stock"] = ⟨StagedStatus.VALID, none⟩ ∧
      smartValidate dateOk
        (buildRawRow ["sku", "name", "price", "stock"]
          (jsSplit ',' "RICE-005,Premium Rice,-5,24"))
        ["sku", "name", "price", "stock"]
        = ⟨StagedStatus.ERROR, some "Invalid number in Price"⟩ ∧
      strIncludes "Invalid number in Price" "Price" = true := by
  intro dateOk
  exact ⟨rfl, rfl, rfl⟩

/-- The reply the OCR oracle gives for an unreadable document, and the
reply `analyzeUploadedDocument` substitutes on any thrown error. -/
def c9ErrorReply : OcrResult := ⟨some "Invalid Document", none, none, none, none⟩

/-- Counterexample to claim C9 as stated: an oracle-level error reply
produces zero staged records (the source only raises an alert and leaves
the staging list, cleared at upload start, empty), not the single ERROR
record the claim asserts. -/
theorem C9_counterexample :
    ¬((handleOcrResult "id0" "2026-01-01" c9ErrorReply).length = 1) := by decide

/-- Claim C9 (amended): when the oracle reply carries no (truthy) error,
exactly one record is staged; it is VALID exactly when `total` is
present and non-zero and `date` is present and non-empty (JS
truthiness, not mere presence), and otherwise it is ERROR with the fixed
reason. A truthy oracle-level error stages nothing at all (only an
alert is raised). -/
theorem C9_ocr_staging (freshId now : String) (result : OcrResult) :
    (isFalsyStr result.error = true →
      (handleOcrResult freshId now result).length = 1 ∧
      ∀ st ∈ handleOcrResult freshId now result,
        (st.status = StagedStatus.VALID ↔
          (truthyNum result.total = true ∧ isFalsyStr result.date = false)) ∧
        (st.status = StagedStatus.VALID ∨
          (st.status = StagedStatus.ERROR ∧
           st.validationError = some "AI could not extract Total or Date"))) ∧
    (isFalsyStr result.error = false → handleOcrResult freshId now result = []) := by
  constructor
  · intro herr
    unfold handleOcrResult
    rw [herr]
    simp only [Bool.not_true, Bool.false_eq_true, if_false]
    refine ⟨rfl, ?_⟩
    intro st hst
    rw [List.mem_singleton] at hst
    subst hst
    dsimp only
    by_cases hv : (truthyNum result.total && !isFalsyStr result.date) = true
    · have hstat : (if (truthyNum result.total && !isFalsyStr result.date) = true
          then StagedStatus.VALID else StagedStatus.ERROR) = StagedStatus.VALID := if_pos hv
      rw [hstat]
      refine ⟨?_, Or.inl rfl⟩
      constructor
      · intro _
        have hparts : truthyNum result.total = true ∧ (!isFalsyStr result.date) = true := by
          simpa using hv
        exact ⟨hparts.1, by simpa using hparts.2⟩
      · intro _
        rfl
    · have hstat : (if (truthyNum result.total && !isFalsyStr result.date) = true
          then StagedStatus.VALID else StagedStatus.ERROR) = StagedStatus.ERROR := if_neg hv
      have herrmsg : (if (truthyNum result.total && !isFalsyStr result.date) = true
          then (none : Option String) else some "AI could not extract Total or Date")
          = some "AI could not extract Total or Date" := if_neg hv
      rw [hstat, herrmsg]
      refine ⟨?_, Or.inr ⟨rfl, rfl⟩⟩
      constructor
      · intro hcontra
        cases hcontra
      · intro hpair
        exfalso
        apply hv
        simp [hpair.1, hpair.2]
  · intro herr
    unfold handleOcrResult
    rw [herr]
    rfl

/-- A successful OCR reply used by the C9 witness. -/
def c9GoodReply : OcrResult := ⟨none, some "2026-01-02", some "Toko Sumber", some 150000, none⟩

/-- Witness instantiating the amended C9 on a reply with both total and
date present and truthy. -/
theorem C9_ocr_staging_witness :
    (handleOcrResult "id1" "2026-01-01" c9GoodReply).length = 1 :=
  ((C9_ocr_staging "id1" "2026-01-01" c9GoodReply).1 (by decide)).1

/-- Claim C10: the staged `totalAmount` of a CSV row is `parseFloat` of
the raw detected-amount value (no stripping), defaulting to 0 when the
parse fails or no amount column exists — while validation parses the
stripped value. Hence the row `Supplies,Rp 5.000` under headers
`name,amount` is VALID (its stripped amount parses to 5) yet commits
with `totalAmount = 0`. -/
theorem C10_committed_amount_unstripped :
    (∀ (dateOk : String → Bool) (freshId now : String) (headers : List String) (line : String),
      (mapCsvRow dateOk freshId now headers line).totalAmount =
        match headers.find? (fun h =>
          strIncludes (lowerStr h) "amount" || strIncludes (lowerStr h) "total" ||
          strIncludes (lowerStr h) "gaji" || strIncludes (lowerStr h) "price") with
        | some k =>
          match objGet (buildRawRow headers (jsSplit ',' line)) k with
          | some v => (jsParseFloat v).getD 0
          | none => 0
        | none => 0) ∧
    (mapCsvRow (fun _ => true) "id0" "now0" ["name", "amount"] "Supplies,Rp 5.000").status
      = StagedStatus.VALID ∧
    (mapCsvRow (fun _ => true) "id0" "now0" ["name", "amount"] "Supplies,Rp 5.000").totalAmount
      = 0 ∧
    jsParseFloat (stripNonNumeric "Rp 5.000") = some 5 := by
  exact ⟨fun _ _ _ _ _ => rfl, rfl, rfl, by decide⟩

/-- Witness instantiating C2: an empty cart is not a valid payment even
for QRIS. -/
theorem C2_payment_validity_witness :
    isPaymentValid [] PaymentMethod.QRIS "" = false :=
  (C2_payment_validity [] PaymentMethod.QRIS "").2

/-- Witness instantiating C8 with a concrete `Date.parse` oracle. -/
theorem C8_csv_row_validation_witness :
    smartValidate (fun _ => true)
      (buildRawRow ["sku", "name", "price", "stock"]
        (jsSplit ',' "RICE-005,Premium Rice,65000,24"))
      ["sku", "name", "price", "stock"] = ⟨StagedStatus.VALID, none⟩ :=
  (C8_csv_row_validation (fun _ => true)).1

/-- Witness instantiating C10: the `Rp 5.000` row is staged VALID with
committed amount 0. -/
theorem C10_committed_amount_unstripped_witness :
    (mapCsvRow (fun _ => true) "id0" "now0" ["name", "amount"] "Supplies,Rp 5.000").status
      = StagedStatus.VALID :=
  C10_committed_amount_unstripped.2.1
